import Mathlib

/-!
Verification of the soft-assertion / tolerance-comparison engine
(`src/core/softcheck.py` and `src/core/decorators.py`).

Python values that flow through the comparator are modelled by `PyVal`:
numbers (int/float) as exact rationals, booleans, strings, `None`, and
sequences (list/tuple/set) as lists.  Python dictionaries with string
keys are modelled as ordered association lists (`PyDict`).  Operations
that can raise a Python exception return `Except Unit`.
-/

set_option maxRecDepth 4000

namespace Softcheck

/-- Model of a Python scalar/sequence value as seen by the comparator. -/
inductive PyVal where
  | none
  | bool (b : Bool)
  | num (q : ℚ)
  | str (s : String)
  | list (xs : List PyVal)

/-- True exactly on the `str` constructor. -/
def PyVal.isStr : PyVal → Bool
  | .str _ => true
  | _ => false

/-- True exactly on the `list` constructor (models list/tuple/set). -/
def PyVal.isList : PyVal → Bool
  | .list _ => true
  | _ => false

mutual

/-- Python `==` on modelled values: numbers compare by value, `bool` is a
numeric type (`True == 1`, `False == 0`), strings and sequences compare
structurally, and values of unrelated types are unequal. -/
def pyEq : PyVal → PyVal → Bool
  | .none, .none => true
  | .bool a, .bool b => a == b
  | .bool a, .num b => (if a then (1 : ℚ) else 0) == b
  | .num a, .bool b => a == (if b then (1 : ℚ) else 0)
  | .num a, .num b => a == b
  | .str a, .str b => a == b
  | .list xs, .list ys => pyEqList xs ys
  | _, _ => false

/-- Elementwise Python `==` on sequences. -/
def pyEqList : List PyVal → List PyVal → Bool
  | [], [] => true
  | x :: xs, y :: ys => pyEq x y && pyEqList xs ys
  | _, _ => false

end

/-- Numeric value of a decimal digit character. -/
def digitVal (c : Char) : ℕ := c.toNat - 48

/-- Value of a digit string read left to right. -/
def digitsVal (cs : List Char) : ℕ := cs.foldl (fun a c => 10 * a + digitVal c) 0

/-- Modelled from the spec: the unsigned part of the tolerant number parser
(the repository's `src/utils/format_utils.py` is not under `src/`); accepts
digits with an optional decimal point, as in "12", "12.5", "12.", ".5". -/
def parseUnsigned (cs : List Char) : Option ℚ :=
  let ip := cs.takeWhile Char.isDigit
  let rest := cs.dropWhile Char.isDigit
  match rest with
  | [] => if ip.isEmpty then none else some (digitsVal ip)
  | '.' :: fp =>
      if fp.all Char.isDigit && !(ip.isEmpty && fp.isEmpty) then
        some ((digitsVal ip : ℚ) + (digitsVal fp : ℚ) / (10 : ℚ) ^ fp.length)
      else none
  | _ => none

/-- Modelled from the spec: parse of numeric-looking text with an optional
sign (`src/utils/format_utils.py` is not under `src/`). -/
def parseNumber : List Char → Option ℚ
  | '-' :: cs => (parseUnsigned cs).map Neg.neg
  | '+' :: cs => parseUnsigned cs
  | cs => parseUnsigned cs

/-- Modelled from the spec: `remove_comma(_, to_float=True)` followed by the
`is_float` validity test from `src/utils/format_utils.py`, which is not under
`src/`.  Per the spec, inputs are "numeric or numeric-looking text (may
contain thousands separators)": a number passes through, a string has commas
removed and is parsed as a decimal number, anything else is not a valid
number. -/
def normalizeNumber : PyVal → Option ℚ
  | .num q => some q
  | .str s => parseNumber (s.toList.filter (fun c => c ≠ ','))
  | _ => none

/-- The constant `epsilon` from `_compare_with_tolerance` (1e-10). -/
def epsilon : ℚ := 1 / 10 ^ 10

/-- Python's `abs` on a rational, written out as a conditional. -/
def ratAbs (q : ℚ) : ℚ := if q < 0 then -q else q

/-- Fixed-point rendering of a rational with `prec` decimal places, the
model of Python's `f"{x:.4f}"`-style formatting used for report strings. -/
def formatFixed (q : ℚ) (prec : Nat) : String :=
  let n : ℤ := round (q * (10 : ℚ) ^ prec)
  let sign := if n < 0 then "-" else ""
  let m := n.natAbs
  let base := (10 : ℕ) ^ prec
  let fstr := toString (m % base)
  let pad := String.mk (List.replicate (prec - fstr.length) '0')
  sign ++ toString (m / base) ++ "." ++ pad ++ fstr

/-- Result of `_compare_with_tolerance`: `res`/`diff`/`diff_percent`/
`tolerance`.  `diff` and `diff_percent` are `PyVal` because the code
returns strings on the numeric path but the number `0` on the
type-mismatch path. -/
structure TolResult where
  res : Bool
  diff : PyVal
  diff_percent : PyVal
  tolerance : String

/-- Model of `_compare_with_tolerance(num1, num2, tolerance_percent)` from
`src/core/softcheck.py`. -/
def compareWithTolerance (num1 num2 : PyVal) (tolerancePercent : ℚ) : TolResult :=
  match normalizeNumber num1, normalizeNumber num2 with
  | some act, some exp =>
      let diff := ratAbs (act - exp)
      let tolFrac := tolerancePercent / 100
      let diffPercent : ℚ :=
        if ratAbs exp < epsilon then (if diff < epsilon then 0 else 999999)
        else diff / ratAbs exp * 100
      let toleranceValue : ℚ := if ratAbs exp < epsilon then 0 else tolFrac * ratAbs exp
      { res := decide (diff ≤ toleranceValue)
        diff := .str (formatFixed diff 4)
        diff_percent := .str (formatFixed diffPercent 4)
        tolerance := "±" ++ formatFixed toleranceValue 2 ++ " ("
          ++ formatFixed tolerancePercent 2 ++ "%)" }
  | _, _ => { res := false, diff := .num 0, diff_percent := .num 0, tolerance := "" }

/-- A Python dictionary with string keys: an ordered association list. -/
abbrev PyDict := List (String × PyVal)

/-- Python `key in d` on a dictionary. -/
def containsKey (d : PyDict) (k : String) : Bool := d.any (fun e => e.1 == k)

/-- The comparison operators the engine is invoked with (the code passes
`operator.eq` by default and tests identity with `operator.contains`). -/
inductive CompareOp where
  | eq | ne | contains
deriving DecidableEq

/-- Whether the first character list starts the second. -/
def charsPre : List Char → List Char → Bool
  | [], _ => true
  | _ :: _, [] => false
  | a :: as, b :: bs => a == b && charsPre as bs

/-- Whether the first character list occurs contiguously in the second
(Python's substring test `sub in s`). -/
def charsSub : List Char → List Char → Bool
  | sub, [] => sub.isEmpty
  | sub, c :: tl => charsPre sub (c :: tl) || charsSub sub tl

/-- Python `x in xs` for a sequence: some element compares `==` to `x`. -/
def pyInList (x : PyVal) (xs : List PyVal) : Bool := xs.any (fun el => pyEq el x)

/-- Python `expected in actual` (container on the left here): substring
test for strings, membership by `==` for sequences, a `TypeError`
(modelled as `.error`) for non-container values or a string container
with a non-string needle. -/
def pyContains : PyVal → PyVal → Except Unit Bool
  | .str s, .str sub => .ok (charsSub sub.toList s.toList)
  | .str _, _ => .error ()
  | .list xs, v => .ok (pyInList v xs)
  | _, _ => .error ()

/-- Applying a comparison operator to two scalar values, as the code does
with `assert_op(act, exp)`; `contains` may raise. -/
def applyOp : CompareOp → PyVal → PyVal → Except Unit Bool
  | .eq, a, b => .ok (pyEq a b)
  | .ne, a, b => .ok (!pyEq a b)
  | .contains, a, b => pyContains a b

/-- One `tolerance_info[key]` entry: `diff_percent` and `tolerance` copied
from the scalar tolerance result. -/
structure TolEntry where
  diff_percent : PyVal
  tolerance : String

/-- Outcome of one iteration of `_compare_dict`'s loop body for a key. -/
inductive StepOut where
  /-- Case `key not in actual`: `compare_res` records `False`, nothing else. -/
  | missingKey
  /-- A comparison ran: its boolean, plus the tolerance-info entry when a
  tolerance branch was taken. -/
  | compared (res : Bool) (tol : Option TolEntry)

/-- The body of `_compare_dict`'s `for key in expected` loop for a single
key: missing-key short-circuit, then field-specific tolerance from
`tolerance_map`, then global tolerance for keys listed in
`tolerance_fields`, else the plain operator. -/
def perKeyStep (actual : PyDict) (tp : Option ℚ) (tf : List String)
    (tm : List (String × ℚ)) (op : CompareOp) (k : String) (exp : PyVal) :
    Except Unit StepOut :=
  match List.lookup k actual with
  | Option.none => .ok .missingKey
  | some act =>
    match List.lookup k tm with
    | some fieldTol =>
        let tr := compareWithTolerance act exp fieldTol
        .ok (.compared tr.res (some ⟨tr.diff_percent, tr.tolerance⟩))
    | Option.none =>
      match tp with
      | some p =>
          if tf.contains k then
            let tr := compareWithTolerance act exp p
            .ok (.compared tr.res (some ⟨tr.diff_percent, tr.tolerance⟩))
          else
            match applyOp op act exp with
            | .error e => .error e
            | .ok b => .ok (.compared b Option.none)
      | Option.none =>
          match applyOp op act exp with
          | .error e => .error e
          | .ok b => .ok (.compared b Option.none)

/-- The accumulators of `_compare_dict`'s loop: `compare_res`,
`diff_keys`, `tolerance_info`, in iteration order. -/
structure LoopOut where
  compareRes : List Bool
  diffKeys : List String
  tolInfo : List (String × TolEntry)

/-- The `for key in expected` loop of `_compare_dict` over the expected
entries; a raised exception aborts the whole call. -/
def compareLoop (actual : PyDict) (tp : Option ℚ) (tf : List String)
    (tm : List (String × ℚ)) (op : CompareOp) :
    List (String × PyVal) → Except Unit LoopOut
  | [] => .ok ⟨[], [], []⟩
  | (k, exp) :: rest =>
    match perKeyStep actual tp tf tm op k exp with
    | .error e => .error e
    | .ok step =>
      match compareLoop actual tp tf tm op rest with
      | .error e => .error e
      | .ok lo =>
        match step with
        | .missingKey => .ok ⟨false :: lo.compareRes, lo.diffKeys, lo.tolInfo⟩
        | .compared b tolE =>
            .ok ⟨b :: lo.compareRes,
                 if b then lo.diffKeys else k :: lo.diffKeys,
                 match tolE with
                 | some te => (k, te) :: lo.tolInfo
                 | Option.none => lo.tolInfo⟩

/-- Result dictionary of `_compare_dict`: `res`, `missing`, `redundant`,
`diff`, and the optional `tolerance_info` key (absent = key not in the
returned dict). -/
structure DictResult where
  res : Bool
  missing : List String
  redundant : List String
  diff : List String
  tolerance_info : Option (List (String × TolEntry))

/-- Model of `_compare_dict(actual, expected, tolerance_percent,
tolerance_fields, tolerance_map, assert_op)` from `src/core/softcheck.py`.  `tf = []` and
`tm = []` model Python `None`/empty, which the code treats alike
(falsy). -/
def compareDict (actual expected : PyDict) (tp : Option ℚ) (tf : List String)
    (tm : List (String × ℚ)) (op : CompareOp) : Except Unit DictResult :=
  match compareLoop actual tp tf tm op expected with
  | .error e => .error e
  | .ok lo =>
    .ok { res := lo.compareRes.all id
            && ((expected.map Prod.fst).filter (fun k => !containsKey actual k)).isEmpty
            && ((actual.map Prod.fst).filter (fun k => !containsKey expected k)).isEmpty
          missing := (expected.map Prod.fst).filter (fun k => !containsKey actual k)
          redundant := (actual.map Prod.fst).filter (fun k => !containsKey expected k)
          diff := lo.diffKeys
          tolerance_info :=
            if (tp.isSome && !tf.isEmpty) || !tm.isEmpty then some lo.tolInfo
            else Option.none }

/-- The scalar branch of `_soft_assert`: tolerance comparison when a
tolerance percent is given, else the special `contains` handling
(subset semantics for two sequences, caught membership test otherwise),
else the plain operator.  The returned boolean is what the code both
reports to `pytest_check` and returns. -/
def softAssertScalar (actual expected : PyVal) (op : CompareOp)
    (tp : Option ℚ) : Except Unit Bool :=
  match tp with
  | some p => .ok (compareWithTolerance actual expected p).res
  | Option.none =>
    match op with
    | .contains =>
      match actual, expected with
      | .list xs, .list ys => .ok (ys.all (fun y => pyInList y xs))
      | a, e =>
        match pyContains a e with
        | .ok b => .ok b
        | .error _ => .ok false
    | o =>
      match applyOp o actual expected with
      | .error e => .error e
      | .ok b => .ok b

/-- Model of `assert_true(actual)`, i.e. `_soft_assert(actual, True)`; the expected
value `True` is never a dict, so this is the scalar branch with the
default equality operator. -/
def assert_true (actual : PyVal) : Except Unit Bool :=
  softAssertScalar actual (.bool true) .eq Option.none

/-- Model of `assert_false(actual)`, i.e. `_soft_assert(actual, False)`. -/
def assert_false (actual : PyVal) : Except Unit Bool :=
  softAssertScalar actual (.bool false) .eq Option.none

/-- The `attach_table_details` wrapper's table argument: when the
operator is `contains` and both sides are dicts, the `actual` attached
to the report table is filtered to expected's keys; the filter happens
after the wrapped call returned. -/
def attachTableActual (op : CompareOp) (actual expected : PyDict) : PyDict :=
  if op = .contains then actual.filter (fun e => containsKey expected e.1) else actual

/-- The dict path of `_soft_assert` as seen through `attach_table_details`:
the comparison result (computed on the full `actual`) together with the
`actual` dict handed to the attached report table. -/
def softAssertDictWrapped (actual expected : PyDict) (tp : Option ℚ)
    (tf : List String) (tm : List (String × ℚ)) (op : CompareOp) :
    Except Unit (DictResult × PyDict) :=
  match compareDict actual expected tp tf tm op with
  | .error e => .error e
  | .ok r => .ok (r, attachTableActual op actual expected)

/-- Projection of a possibly-raising dict comparison onto its `res`
field. -/
def dcRes (x : Except Unit DictResult) : Option Bool :=
  match x with
  | .ok r => some r.res
  | .error _ => Option.none

/-- Projection onto the optional `tolerance_info` field. -/
def dcTolInfo (x : Except Unit DictResult) : Option (Option (List (String × TolEntry))) :=
  match x with
  | .ok r => some r.tolerance_info
  | .error _ => Option.none

/-- Projection of a possibly-raising scalar assertion onto its boolean. -/
def scRes (x : Except Unit Bool) : Option Bool :=
  match x with
  | .ok b => some b
  | .error _ => Option.none

/-- Projection of the wrapped dict assertion onto the comparison's `res`. -/
def wrRes (x : Except Unit (DictResult × PyDict)) : Option Bool :=
  match x with
  | .ok p => some p.1.res
  | .error _ => Option.none

-- ===================== helper lemmas ===================== --

theorem ratAbs_eq_abs (q : ℚ) : ratAbs q = |q| := by
  by_cases h : q < 0
  · rw [ratAbs, if_pos h, abs_of_neg h]
  · rw [ratAbs, if_neg h, abs_of_nonneg (not_lt.mp h)]

mutual

theorem pyEq_refl : (v : PyVal) → pyEq v v = true
  | .none => rfl
  | .bool b => by simp [pyEq]
  | .num q => by simp [pyEq]
  | .str s => by simp [pyEq]
  | .list xs => by simp [pyEq, pyEqList_refl xs]

theorem pyEqList_refl : (xs : List PyVal) → pyEqList xs xs = true
  | [] => rfl
  | x :: xs => by simp [pyEqList, pyEq_refl x, pyEqList_refl xs]

end

theorem lookup_eq_none_of_containsKey_false (d : PyDict) (k : String)
    (h : containsKey d k = false) : List.lookup k d = Option.none := by
  induction d with
  | nil => rfl
  | cons e rest ih =>
      obtain ⟨k', v⟩ := e
      have h' : (k' == k) = false ∧ containsKey rest k = false := by
        simpa [containsKey, Bool.or_eq_false_iff] using h
      have hkk : (k == k') = false := by
        by_cases hk : k = k'
        · subst hk; simp at h'
        · simp [hk]
      simp [List.lookup, hkk, ih h'.2]

theorem containsKey_of_mem_keys (d : PyDict) (k : String)
    (h : k ∈ d.map Prod.fst) : containsKey d k = true := by
  rw [containsKey, List.any_eq_true]
  obtain ⟨e, he, hk⟩ := List.mem_map.mp h
  exact ⟨e, he, by simp [hk]⟩

theorem lookup_self_of_nodup (d : PyDict) (hnd : (d.map Prod.fst).Nodup) :
    ∀ p ∈ d, List.lookup p.1 d = some p.2 := by
  induction d with
  | nil => simp
  | cons e rest ih =>
      obtain ⟨k', v'⟩ := e
      rw [List.map_cons, List.nodup_cons] at hnd
      intro p hp
      rcases List.mem_cons.mp hp with h | h
      · subst h; simp [List.lookup]
      · have hne : p.1 ≠ k' := by
          intro hh
          exact hnd.1 (hh ▸ List.mem_map.mpr ⟨p, h, rfl⟩)
        have hb : (p.1 == k') = false := beq_eq_false_iff_ne.mpr hne
        simp [List.lookup, hb, ih hnd.2 p h]

theorem compareLoop_missing_not_diff (actual : PyDict) (tp : Option ℚ)
    (tf : List String) (tm : List (String × ℚ)) (op : CompareOp) :
    ∀ (entries : List (String × PyVal)) (lo : LoopOut),
      compareLoop actual tp tf tm op entries = .ok lo →
      ∀ k, List.lookup k actual = Option.none → k ∉ lo.diffKeys := by
  intro entries
  induction entries with
  | nil =>
      intro lo h k hk
      rw [compareLoop] at h
      cases h
      simp
  | cons p rest ih =>
      obtain ⟨k', exp⟩ := p
      intro lo h k hk
      rw [compareLoop] at h
      cases hone : perKeyStep actual tp tf tm op k' exp with
      | error e => rw [hone] at h; exact absurd h (by simp)
      | ok step =>
        rw [hone] at h
        cases hrest : compareLoop actual tp tf tm op rest with
        | error e => rw [hrest] at h; exact absurd h (by simp)
        | ok lo' =>
          rw [hrest] at h
          cases step with
          | missingKey =>
              cases h
              simpa using ih lo' hrest k hk
          | compared b tolE =>
              cases h
              have hrec := ih lo' hrest k hk
              have hkk : k ≠ k' := by
                intro hh
                subst hh
                rw [perKeyStep, hk] at hone
                exact absurd hone (by simp)
              cases b <;> simp [hkk, hrec]

theorem compareLoop_eq_refl (d : PyDict) :
    ∀ entries : List (String × PyVal),
      (∀ p ∈ entries, List.lookup p.1 d = some p.2) →
      compareLoop d Option.none [] [] .eq entries
        = .ok ⟨entries.map (fun _ => true), [], []⟩ := by
  intro entries
  induction entries with
  | nil => intro _; rfl
  | cons p rest ih =>
      obtain ⟨k, v⟩ := p
      intro h
      have hp : List.lookup k d = some v := h (k, v) (List.mem_cons_self _ _)
      have hr := ih (fun q hq => h q (List.mem_cons_of_mem _ hq))
      rw [compareLoop, perKeyStep, hp]
      simp [applyOp, pyEq_refl, hr]

-- ===================== C2 ===================== --

/-- C2: `_compare_dict`'s overall `res` is the conjunction of all per-key
comparison results with emptiness of `missing` and `redundant`; a key of
`expected` absent from `actual` lands in `missing`, forces `res = false`,
and never appears in `diff`. -/
theorem compareDict_passed_iff (actual expected : PyDict) (tp : Option ℚ)
    (tf : List String) (tm : List (String × ℚ)) (op : CompareOp)
    (r : DictResult) (lo : LoopOut) (k : String)
    (hloop : compareLoop actual tp tf tm op expected = .ok lo)
    (hdict : compareDict actual expected tp tf tm op = .ok r) :
    (r.res = (lo.compareRes.all id && r.missing.isEmpty && r.redundant.isEmpty))
    ∧ (k ∈ expected.map Prod.fst → containsKey actual k = false →
        k ∈ r.missing ∧ k ∉ r.diff ∧ r.res = false) := by
  rw [compareDict, hloop] at hdict
  cases hdict
  constructor
  · rfl
  · intro hmem hcont
    have hmk : k ∈ (expected.map Prod.fst).filter (fun k => !containsKey actual k) :=
      List.mem_filter.mpr ⟨hmem, by simp [hcont]⟩
    refine ⟨hmk, ?_, ?_⟩
    · exact compareLoop_missing_not_diff actual tp tf tm op expected lo hloop k
        (lookup_eq_none_of_containsKey_false actual k hcont)
    · have hne : ((expected.map Prod.fst).filter
          (fun k => !containsKey actual k)).isEmpty = false := by
        cases hl : (expected.map Prod.fst).filter (fun k => !containsKey actual k) with
        | nil => rw [hl] at hmk; simp at hmk
        | cons a l => simp
      simp [hne]

/-- Witness for C2: `compareDict({}, {"a": 1})` has `res = false`,
`missing = ["a"]`, and `"a"` not in `diff`. -/
theorem compareDict_passed_iff_witness :
    "a" ∈ (⟨false, ["a"], [], [], Option.none⟩ : DictResult).missing
    ∧ "a" ∉ (⟨false, ["a"], [], [], Option.none⟩ : DictResult).diff
    ∧ (⟨false, ["a"], [], [], Option.none⟩ : DictResult).res = false :=
  (compareDict_passed_iff [] [("a", PyVal.num 1)] Option.none [] [] .eq
    ⟨false, ["a"], [], [], Option.none⟩ ⟨[false], [], []⟩ "a" rfl rfl).2
    (by simp) rfl

-- ===================== C8 ===================== --

/-- C8: comparing any non-empty dict (with duplicate-free keys, the
Python dict invariant) against itself with default options passes. -/
theorem compareDict_refl (d : PyDict) (hne : d ≠ [])
    (hnd : (d.map Prod.fst).Nodup) :
    dcRes (compareDict d d Option.none [] [] .eq) = some true := by
  have hloop := compareLoop_eq_refl d d (lookup_self_of_nodup d hnd)
  have hmiss : (d.map Prod.fst).filter (fun k => !containsKey d k) = [] := by
    rw [List.filter_eq_nil_iff]
    intro k hk
    simp [containsKey_of_mem_keys d k hk]
  rw [compareDict, hloop]
  simp [dcRes, hmiss, List.all_eq_true]

/-- Witness for C8 at the one-entry dict `{"a": 1}`. -/
theorem compareDict_refl_witness :
    dcRes (compareDict [("a", PyVal.num 1)] [("a", PyVal.num 1)]
      Option.none [] [] .eq) = some true :=
  compareDict_refl [("a", PyVal.num 1)] (by simp) (by simp)

-- ===================== C1 ===================== --

/-- C1: for numeric inputs `a`, `e` and tolerance `t ≥ 0`,
`_compare_with_tolerance(a, e, t)` passes iff `|a - e| ≤ (t/100)·|e|`
when `|e| ≥ epsilon` (inclusive boundary), and iff `|a - e| ≤ 0` when
`|e| < epsilon`; in particular `(0, 0, t)` passes and `(0.5, 0, t)`
fails for every such `t`. -/
theorem compareWithTolerance_passed_iff (a e t : ℚ) (ht : 0 ≤ t) :
    ((compareWithTolerance (.num a) (.num e) t).res = true ↔
      (if epsilon ≤ |e| then |a - e| ≤ t / 100 * |e| else |a - e| ≤ 0))
    ∧ (compareWithTolerance (.num 0) (.num 0) t).res = true
    ∧ (compareWithTolerance (.num (1/2)) (.num 0) t).res = false := by
  refine ⟨?_, ?_, ?_⟩
  · simp only [compareWithTolerance, normalizeNumber, ratAbs_eq_abs]
    by_cases h : |e| < epsilon
    · rw [if_pos h, if_neg (not_le.mpr h)]
      simp
    · rw [if_neg h, if_pos (not_lt.mp h)]
      simp
  · norm_num [compareWithTolerance, normalizeNumber, ratAbs, epsilon]
  · norm_num [compareWithTolerance, normalizeNumber, ratAbs, epsilon]

/-- Witness for C1 at `a = 100.5`, `e = 100`, `t = 1`. -/
theorem compareWithTolerance_passed_iff_witness :
    (0 : ℚ) ≤ 1 ∧
    (((compareWithTolerance (.num (201/2)) (.num 100) 1).res = true ↔
      (if epsilon ≤ |(100 : ℚ)| then |(201/2 : ℚ) - 100| ≤ 1 / 100 * |(100 : ℚ)|
       else |(201/2 : ℚ) - 100| ≤ 0))
    ∧ (compareWithTolerance (.num 0) (.num 0) 1).res = true
    ∧ (compareWithTolerance (.num (1/2)) (.num 0) 1).res = false) :=
  ⟨by decide, compareWithTolerance_passed_iff (201/2) 100 1 (by decide)⟩

-- ===================== C3 ===================== --

/-- C3: when either input fails to normalize to a valid number,
`_compare_with_tolerance` never raises and returns the definitive-fail
result with zeroed diff fields. -/
theorem compareWithTolerance_nonNumeric (v w : PyVal) (t : ℚ)
    (h : normalizeNumber v = Option.none ∨ normalizeNumber w = Option.none) :
    compareWithTolerance v w t = ⟨false, .num 0, .num 0, ""⟩ := by
  rcases h with h | h
  · cases hw : normalizeNumber w <;> simp [compareWithTolerance, h, hw]
  · cases hv : normalizeNumber v <;> simp [compareWithTolerance, h, hv]

/-- Witness for C3 at the non-numeric input "abc". -/
theorem compareWithTolerance_nonNumeric_witness :
    (normalizeNumber (PyVal.str "abc") = Option.none ∨
      normalizeNumber (PyVal.num 1) = Option.none)
    ∧ compareWithTolerance (PyVal.str "abc") (PyVal.num 1) 1 = ⟨false, .num 0, .num 0, ""⟩ :=
  have h : normalizeNumber (PyVal.str "abc") = Option.none := rfl
  ⟨Or.inl h, compareWithTolerance_nonNumeric _ _ 1 (Or.inl h)⟩

-- ===================== C9 ===================== --

/-- C9 counterexample: on a non-numeric input the result's `diff` and
`diff_percent` fields are the number `0`, not strings, contradicting the
claim that every result has string-typed diff fields. -/
theorem compareWithTolerance_result_not_all_strings :
    (compareWithTolerance (PyVal.str "abc") (PyVal.num 1) 1).diff = PyVal.num 0
    ∧ (compareWithTolerance (PyVal.str "abc") (PyVal.num 1) 1).diff.isStr = false
    ∧ (compareWithTolerance (PyVal.str "abc") (PyVal.num 1) 1).diff_percent = PyVal.num 0 := by
  have h : compareWithTolerance (PyVal.str "abc") (PyVal.num 1) 1
      = ⟨false, .num 0, .num 0, ""⟩ := rfl
  rw [h]
  exact ⟨rfl, rfl, rfl⟩

/-- C9 amended: every result has a boolean `res` and a string
`tolerance`; `diff` and `diff_percent` are strings exactly when both
inputs normalize to valid numbers, and are the number `0` otherwise. -/
theorem compareWithTolerance_result_shape (v w : PyVal) (t : ℚ) :
    ((compareWithTolerance v w t).diff.isStr
      = ((normalizeNumber v).isSome && (normalizeNumber w).isSome))
    ∧ ((compareWithTolerance v w t).diff_percent.isStr
      = ((normalizeNumber v).isSome && (normalizeNumber w).isSome))
    ∧ ((normalizeNumber v).isSome = false ∨ (normalizeNumber w).isSome = false →
        (compareWithTolerance v w t).diff = PyVal.num 0
        ∧ (compareWithTolerance v w t).diff_percent = PyVal.num 0) := by
  cases hv : normalizeNumber v <;> cases hw : normalizeNumber w <;>
    simp [compareWithTolerance, hv, hw, PyVal.isStr]

/-- Witness for C9's amended statement at a non-numeric input. -/
theorem compareWithTolerance_result_shape_witness :
    ((normalizeNumber (PyVal.str "abc")).isSome = false ∨
      (normalizeNumber (PyVal.num 1)).isSome = false)
    ∧ (compareWithTolerance (PyVal.str "abc") (PyVal.num 1) 1).diff = PyVal.num 0
    ∧ (compareWithTolerance (PyVal.str "abc") (PyVal.num 1) 1).diff_percent = PyVal.num 0 :=
  have h : (normalizeNumber (PyVal.str "abc")).isSome = false := rfl
  ⟨Or.inl h, (compareWithTolerance_result_shape (PyVal.str "abc") (PyVal.num 1) 1).2.2 (Or.inl h)⟩

-- ===================== C4 ===================== --

/-- C4: a key with an entry in `tolerance_map` is compared with that
field-specific percentage, whatever `tolerance_percent`/`tolerance_fields`
say; concretely, with map `{"price": 1}`, fields `["price"]` and global
percent 50, a 1.5% deviation on `price` fails (the 1% bound governs),
while dropping the map entry makes the same comparison pass under the
global 50%. -/
theorem perKeyStep_toleranceMap_precedence (actual : PyDict) (tp : Option ℚ)
    (tf : List String) (tm : List (String × ℚ)) (op : CompareOp) (k : String)
    (exp act : PyVal) (t : ℚ)
    (htm : List.lookup k tm = some t)
    (hact : List.lookup k actual = some act) :
    (perKeyStep actual tp tf tm op k exp
      = .ok (.compared (compareWithTolerance act exp t).res
          (some ⟨(compareWithTolerance act exp t).diff_percent,
                 (compareWithTolerance act exp t).tolerance⟩)))
    ∧ dcRes (compareDict [("price", PyVal.num (203/2))] [("price", PyVal.num 100)]
        (some 50) ["price"] [("price", 1)] .eq) = some false
    ∧ dcRes (compareDict [("price", PyVal.num (203/2))] [("price", PyVal.num 100)]
        (some 50) ["price"] [] .eq) = some true := by
  refine ⟨by rw [perKeyStep, hact, htm], ?_, ?_⟩
  · have h : (compareWithTolerance (PyVal.num (203/2)) (PyVal.num 100) 1).res = false := by
      norm_num [compareWithTolerance, normalizeNumber, ratAbs, epsilon]
    simp [dcRes, compareDict, compareLoop, perKeyStep, List.lookup, containsKey, h]
  · have h : (compareWithTolerance (PyVal.num (203/2)) (PyVal.num 100) 50).res = true := by
      norm_num [compareWithTolerance, normalizeNumber, ratAbs, epsilon]
    simp [dcRes, compareDict, compareLoop, perKeyStep, List.lookup, containsKey, h]

/-- Witness for C4 at a one-entry map and dict. -/
theorem perKeyStep_toleranceMap_precedence_witness :
    (perKeyStep [("p", PyVal.num 1)] (some 50) ["p"] [("p", 2)] .eq "p" (PyVal.num 1)
      = .ok (.compared (compareWithTolerance (PyVal.num 1) (PyVal.num 1) 2).res
          (some ⟨(compareWithTolerance (PyVal.num 1) (PyVal.num 1) 2).diff_percent,
                 (compareWithTolerance (PyVal.num 1) (PyVal.num 1) 2).tolerance⟩)))
    ∧ dcRes (compareDict [("price", PyVal.num (203/2))] [("price", PyVal.num 100)]
        (some 50) ["price"] [("price", 1)] .eq) = some false
    ∧ dcRes (compareDict [("price", PyVal.num (203/2))] [("price", PyVal.num 100)]
        (some 50) ["price"] [] .eq) = some true :=
  perKeyStep_toleranceMap_precedence [("p", PyVal.num 1)] (some 50) ["p"]
    [("p", 2)] .eq "p" (PyVal.num 1) (PyVal.num 1) 2 rfl rfl

-- ===================== C5 ===================== --

/-- C5 counterexample: with tolerance arguments supplied but no key of
`expected` matching them, `_compare_dict` still returns a result
containing the `tolerance_info` key (as an empty mapping), although
tolerance was applied to no field — the claim says it is omitted
entirely in that case. -/
theorem compareDict_tolInfo_present_without_application :
    dcTolInfo (compareDict [("a", PyVal.num 1)] [("a", PyVal.num 1)]
      (some 5) ["price"] [] .eq) = some (some []) := rfl

/-- C5 amended: the result contains `tolerance_info` iff tolerance
arguments were supplied (`tolerance_percent` set with non-empty
`tolerance_fields`, or a non-empty `tolerance_map`), whether or not any
key matched them. -/
theorem compareDict_tolInfo_iff_args (actual expected : PyDict) (tp : Option ℚ)
    (tf : List String) (tm : List (String × ℚ)) (op : CompareOp) (r : DictResult)
    (h : compareDict actual expected tp tf tm op = .ok r) :
    r.tolerance_info.isSome = ((tp.isSome && !tf.isEmpty) || !tm.isEmpty) := by
  cases hl : compareLoop actual tp tf tm op expected with
  | error e => rw [compareDict, hl] at h; exact absurd h (by simp)
  | ok lo =>
      rw [compareDict, hl] at h
      cases h
      cases hc : (tp.isSome && !tf.isEmpty) || !tm.isEmpty <;> simp [hc]

/-- Witness for C5's amended statement: no tolerance arguments, so the
result omits `tolerance_info`. -/
theorem compareDict_tolInfo_iff_args_witness :
    (⟨true, [], [], [], Option.none⟩ : DictResult).tolerance_info.isSome
      = (((Option.none : Option ℚ).isSome && !([] : List String).isEmpty)
          || !([] : List (String × ℚ)).isEmpty) :=
  compareDict_tolInfo_iff_args [] [] Option.none [] [] .eq
    ⟨true, [], [], [], Option.none⟩ rfl

-- ===================== C6 ===================== --

/-- C6 counterexample: with the `contains` operator at dict level, the
comparison outcome is computed over the full `actual` — here it fails
because of the redundant key `"b"` — although the same comparison over
the subset of `actual` filtered to `expected`'s keys would pass.  So
`actual` is not filtered before the comparison, contradicting the
claim. -/
theorem compareDict_contains_not_prefiltered :
    dcRes (compareDict [("a", PyVal.str "xy"), ("b", PyVal.str "z")]
      [("a", PyVal.str "x")] Option.none [] [] .contains) = some false
    ∧ dcRes (compareDict (attachTableActual .contains
        [("a", PyVal.str "xy"), ("b", PyVal.str "z")] [("a", PyVal.str "x")])
        [("a", PyVal.str "x")] Option.none [] [] .contains) = some true
    ∧ wrRes (softAssertDictWrapped [("a", PyVal.str "xy"), ("b", PyVal.str "z")]
        [("a", PyVal.str "x")] Option.none [] [] .contains) = some false :=
  ⟨rfl, rfl, rfl⟩

/-- C6 amended: in `contains` mode the filtering of `actual` to
`expected`'s keys applies only to the dict attached to the report table,
after the comparison ran; the comparison result itself is the plain
`_compare_dict` over the full `actual` (redundant-key detection
included). -/
theorem softAssertDictWrapped_contains_spec (actual expected : PyDict)
    (tp : Option ℚ) (tf : List String) (tm : List (String × ℚ)) (r : DictResult)
    (h : compareDict actual expected tp tf tm .contains = .ok r) :
    softAssertDictWrapped actual expected tp tf tm .contains
      = .ok (r, actual.filter (fun e => containsKey expected e.1)) := by
  rw [softAssertDictWrapped, h, attachTableActual, if_pos rfl]

/-- Witness for C6's amended statement at the counterexample input. -/
theorem softAssertDictWrapped_contains_spec_witness :
    softAssertDictWrapped [("a", PyVal.str "xy"), ("b", PyVal.str "z")]
      [("a", PyVal.str "x")] Option.none [] [] .contains
      = .ok (⟨false, [], ["b"], [], Option.none⟩, [("a", PyVal.str "xy")]) :=
  softAssertDictWrapped_contains_spec [("a", PyVal.str "xy"), ("b", PyVal.str "z")]
    [("a", PyVal.str "x")] Option.none [] []
    ⟨false, [], ["b"], [], Option.none⟩ rfl

-- ===================== C7 ===================== --

/-- C7: in the scalar `contains` path, two sequence values pass iff
every element of `expected` occurs (by `==`) in `actual`; any other
shape passes iff the membership test `expected in actual` succeeds, a
raised exception being caught and turned into a failure — the result is
always `.ok`, never a propagated exception.  The spec's list examples
are included. -/
theorem softAssertScalar_contains_semantics :
    (∀ a e : PyVal, softAssertScalar a e .contains Option.none
      = .ok (match a, e with
             | .list xs, .list ys => ys.all (fun y => pyInList y xs)
             | a', e' =>
               match pyContains a' e' with
               | .ok b => b
               | .error _ => false))
    ∧ scRes (softAssertScalar (.list [.num 1, .num 2, .num 3])
        (.list [.num 2, .num 3]) .contains Option.none) = some true
    ∧ scRes (softAssertScalar (.list [.num 1, .num 2, .num 3])
        (.list [.num 4]) .contains Option.none) = some false
    ∧ pyContains (.num 1) (.num 2) = .error ()
    ∧ softAssertScalar (.num 1) (.num 2) .contains Option.none = .ok false := by
  refine ⟨?_, rfl, rfl, rfl, rfl⟩
  intro a e
  cases a <;> cases e <;> rfl

-- ===================== C10 ===================== --

/-- C10: `assert_true` reports a pass exactly when `actual == True`
under Python equality, and `assert_false` exactly when
`actual == False`; since `bool` is a numeric type, `assert_true(1)` and
`assert_false(0)` both pass. -/
theorem assert_true_false_pyEq :
    (∀ a : PyVal, assert_true a = .ok (pyEq a (.bool true)))
    ∧ (∀ a : PyVal, assert_false a = .ok (pyEq a (.bool false)))
    ∧ assert_true (.num 1) = .ok true
    ∧ assert_false (.num 0) = .ok true :=
  ⟨fun _ => rfl, fun _ => rfl, rfl, rfl⟩

end Softcheck
